import Mathlib

/-!
Verification of the gateway-proxy session-multiplexing engine.

The development shallowly embeds the relevant parts of the Rust sources
(`src/server.rs`, `src/dispatch.rs`) as executable Lean definitions and
proves the specified properties about them.  Components whose sources are
not part of the repository snapshot (the shard-state cell, the guild
tracker, the payload models) are modelled from the specification; such
definitions carry a doc comment starting `Modelled from the spec:`.
-/

namespace GatewayProxy

/-- The modulus of the Rust `usize` type on the 64-bit targets the proxy
runs on; the per-client sequence counter in `forward_shard` has this type. -/
def USIZE : Nat := 2 ^ 64

/-- Wrapping increment of a `usize` counter (`seq += 1` in `forward_shard`). -/
def usizeAdd1 (n : Nat) : Nat := (n + 1) % USIZE

/-- `SequenceInfo` as consumed by `forward_shard` (server.rs line 111):
the original sequence number paired with the byte range of the `s` field
inside the payload text (`SequenceInfo(_, sequence_range)`). -/
structure SequenceInfo where
  oldSeq : Nat
  first : Nat
  stop : Nat
deriving Repr, DecidableEq

/-- Rust `String::replace_range`: the characters in `[first, stop)` are
replaced by `repl`, everything outside the range is kept. -/
def replaceRange (p : String) (first stop : Nat) (repl : String) : String :=
  ⟨p.data.take first ++ repl.data ++ p.data.drop stop⟩

/-- The body of the event loop of `forward_shard` (server.rs lines 109-116):
if the broadcast message carries a sequence location, the counter is
incremented and the range is overwritten with the decimal rendering of the
new counter; otherwise the payload is passed through untouched. -/
def forwardEvent (seq : Nat) (payload : String) (info : Option SequenceInfo) :
    Nat × String :=
  match info with
  | some si => (usizeAdd1 seq, replaceRange payload si.first si.stop (toString (usizeAdd1 seq)))
  | none => (seq, payload)

/-- The event loop of `forward_shard` run over a list of broadcast
messages, returning the texts enqueued to the client and the final counter. -/
def forwardLoop (seq : Nat) : List (String × Option SequenceInfo) → List String × Nat
  | [] => ([], seq)
  | (p, info) :: rest =>
      let r := forwardEvent seq p info
      let rec' := forwardLoop r.1 rest
      (r.2 :: rec'.1, rec'.2)

/-- The sequence numbers the event loop of `forward_shard` writes into
broadcast messages, in emission order (messages without a sequence
location receive none). -/
def forwardLoopSeqs (seq : Nat) : List (String × Option SequenceInfo) → List Nat
  | [] => []
  | (p, info) :: rest =>
      let r := forwardEvent seq p info
      (match info with
       | some _ => [r.1]
       | none => []) ++ forwardLoopSeqs r.1 rest

/-- Number of broadcast messages that carry a sequence location. -/
def countSeqLoc (events : List (String × Option SequenceInfo)) : Nat :=
  (events.filter (fun e => e.2.isSome)).length

/-- Modelled from the spec: the sequence-number effect of
`GuildTracker.get_ready_payload` (the guild tracker lives in a file not
part of this snapshot).  The synthetic READY carries the current value of
the client counter passed in by `forward_shard` (0 for a fresh client,
"READY=0"), and the counter afterwards equals the number the READY
carries, so that the guild burst and the event loop (both of which
increment before assigning) continue contiguously.  Returns
(assigned sequence number, counter after the call). -/
def get_ready_payload_seq (seq : Nat) : Nat × Nat := (seq, seq)

/-- Modelled from the spec: the sequence-number effect of
`GuildTracker.get_guild_payloads`: one dispatch frame per tracked guild,
each carrying `*seq += 1` (increment then assign, the convention of the
event loop in server.rs).  Returns (assigned numbers in emission order,
counter after the call). -/
def get_guild_payloads_seqs (guilds : Nat) (seq : Nat) : List Nat × Nat :=
  match guilds with
  | 0 => ([], seq)
  | Nat.succ g =>
      let s := usizeAdd1 seq
      let rest := get_guild_payloads_seqs g s
      (s :: rest.1, rest.2)

/-- All sequence numbers `forward_shard` assigns to frames sent to one
client over its lifetime, in emission order: the synthetic READY (counter
starts at 0, server.rs line 76), then the guild burst, then every
broadcast message carrying a sequence location. -/
def clientAssignedSeqs (guilds : Nat) (events : List (String × Option SequenceInfo)) :
    List Nat :=
  let ready := get_ready_payload_seq 0
  let burst := get_guild_payloads_seqs guilds ready.2
  ready.1 :: burst.1 ++ forwardLoopSeqs burst.2 events

lemma usizeAdd1_eq_of_lt {n : Nat} (h : n + 1 < USIZE) : usizeAdd1 n = n + 1 := by
  simp [usizeAdd1, Nat.mod_eq_of_lt h]

lemma cons_map_range_succ (s c : Nat) :
    (s + 1) :: (List.range c).map (fun i => s + 1 + 1 + i)
      = (List.range (c + 1)).map (fun i => s + 1 + i) := by
  rw [List.range_succ_eq_map, List.map_cons, List.map_map]
  simp only [Nat.add_zero, List.cons.injEq, true_and]
  exact List.map_congr_left (fun a _ => by simp only [Function.comp_apply]; omega)

lemma get_guild_payloads_seqs_eq :
    ∀ (g s : Nat), s + g < USIZE →
      get_guild_payloads_seqs g s =
        ((List.range g).map (fun i => s + 1 + i), s + g) := by
  intro g
  induction g with
  | zero => intro s _; simp [get_guild_payloads_seqs]
  | succ g ih =>
      intro s h
      have h1 : s + 1 < USIZE := by omega
      have h2 : (s + 1) + g < USIZE := by omega
      simp only [get_guild_payloads_seqs, usizeAdd1_eq_of_lt h1, ih (s + 1) h2]
      rw [Prod.mk.injEq]
      exact ⟨cons_map_range_succ s g, by omega⟩

lemma forwardLoopSeqs_eq :
    ∀ (events : List (String × Option SequenceInfo)) (s : Nat),
      s + countSeqLoc events < USIZE →
      forwardLoopSeqs s events =
        (List.range (countSeqLoc events)).map (fun i => s + 1 + i) := by
  intro events
  induction events with
  | nil => intro s _; simp [forwardLoopSeqs, countSeqLoc]
  | cons e rest ih =>
      obtain ⟨p, info⟩ := e
      cases info with
      | none =>
          intro s h
          have hc : countSeqLoc ((p, none) :: rest) = countSeqLoc rest := by
            simp [countSeqLoc]
          rw [hc] at h ⊢
          simp only [forwardLoopSeqs, forwardEvent]
          simpa using ih s h
      | some si =>
          intro s h
          have hc : countSeqLoc ((p, some si) :: rest) = countSeqLoc rest + 1 := by
            simp [countSeqLoc]
          rw [hc] at h ⊢
          have h1 : s + 1 < USIZE := by omega
          have h2 : (s + 1) + countSeqLoc rest < USIZE := by omega
          simp only [forwardLoopSeqs, forwardEvent, usizeAdd1_eq_of_lt h1,
            List.singleton_append]
          rw [ih (s + 1) h2]
          exact cons_map_range_succ s (countSeqLoc rest)

/-- C1: over a client's lifetime the sequence numbers written into the
frames `forward_shard` sends are exactly `0, 1, 2, …`: the synthetic READY
carries 0, the guild burst carries `1 … guilds`, and every broadcast
message with a sequence location continues contiguously (the counter is
incremented by exactly 1 before each rewrite).  Strict increase and
contiguity from 0 are expressed as equality with `List.range`. -/
theorem client_seqs_contiguous_from_zero
    (guilds : Nat) (events : List (String × Option SequenceInfo))
    (h : guilds + countSeqLoc events < USIZE) :
    clientAssignedSeqs guilds events =
      List.range (1 + guilds + countSeqLoc events) := by
  have hg : 0 + guilds < USIZE := by omega
  have h1 : List.range 1 = [0] := rfl
  have hB : (List.range (countSeqLoc events)).map (fun x => 1 + guilds + x)
      = (List.range (countSeqLoc events)).map (fun i => guilds + 1 + i) :=
    List.map_congr_left (fun a _ => by omega)
  simp only [clientAssignedSeqs, get_ready_payload_seq,
    get_guild_payloads_seqs_eq guilds 0 hg, Nat.zero_add]
  rw [forwardLoopSeqs_eq events guilds h]
  rw [List.range_add, List.range_add, h1, hB]
  simp [List.append_assoc]

/-- Witness for C1 at a concrete run: one tracked guild, one broadcast
message with a sequence location and one without; the assigned numbers
are `[0, 1, 2]`. -/
theorem client_seqs_contiguous_from_zero_witness :
    1 + countSeqLoc [("a", some ⟨7, 5, 9⟩), ("b", none)] < USIZE ∧
    clientAssignedSeqs 1 [("a", some ⟨7, 5, 9⟩), ("b", none)] = List.range 3 :=
  ⟨by decide,
   client_seqs_contiguous_from_zero 1 [("a", some ⟨7, 5, 9⟩), ("b", none)] (by decide)⟩

/-- The suspension and emission points of `forward_shard`
(server.rs lines 65-118) in program order, transcribed from the source:
receive the shard id from the reader task (line 71), subscribe to the
shard's events broadcast (line 79), await the ready snapshot (line 84),
enqueue the synthetic READY (lines 88-95), enqueue the guild burst
(lines 98-106), then run the event loop (lines 109-117). -/
inductive ForwardAction where
  | recvShardId
  | subscribeEvents
  | waitUntilReady
  | sendReady
  | sendGuildBurst
  | eventLoop
deriving Repr, DecidableEq

/-- Program order of `forward_shard`, one entry per action above, read off
the source top to bottom. -/
def forwardShardOrder : List ForwardAction :=
  [ForwardAction.recvShardId, ForwardAction.subscribeEvents,
   ForwardAction.waitUntilReady, ForwardAction.sendReady,
   ForwardAction.sendGuildBurst, ForwardAction.eventLoop]

/-- A broadcast channel modelled as the list of values published so far.
A subscription is a cursor equal to the length of the log at subscribe
time; a subscriber receives exactly the values appended after its cursor
(`tokio::sync::broadcast` semantics, lag aside). -/
structure BroadcastLog (α : Type) where
  log : List α

/-- Publish a list of values on the channel (in order). -/
def publishAll {α : Type} (b : BroadcastLog α) (xs : List α) : BroadcastLog α :=
  ⟨b.log ++ xs⟩

/-- The cursor a new subscription starts at. -/
def subscribeCursor {α : Type} (b : BroadcastLog α) : Nat := b.log.length

/-- Everything a subscription with the given cursor receives. -/
def receivedFrom {α : Type} (b : BroadcastLog α) (cursor : Nat) : List α :=
  b.log.drop cursor

/-- C3, counterexample: the claim places the subscription to the shard's
events broadcast after the awaiting of the ready snapshot and the
enqueueing of the synthetic READY; in the source the subscription
(server.rs line 79) precedes both the ready await (line 84) and the READY
enqueue (lines 88-95) in program order. -/
theorem subscribe_before_ready_await_cex :
    List.indexOf ForwardAction.subscribeEvents forwardShardOrder <
      List.indexOf ForwardAction.waitUntilReady forwardShardOrder
    ∧ List.indexOf ForwardAction.subscribeEvents forwardShardOrder <
      List.indexOf ForwardAction.sendReady forwardShardOrder := by decide

/-- C3, amended: in `forward_shard` the subscription is made immediately
after the shard id is received and before the ready snapshot is awaited
and the synthetic READY plus guild burst are enqueued; consequently events
published before the subscription point (not before the burst) are the
ones never delivered, and a subscriber receives exactly the events
published after its subscription, in order. -/
theorem subscribe_position_and_delivery :
    (List.indexOf ForwardAction.recvShardId forwardShardOrder <
       List.indexOf ForwardAction.subscribeEvents forwardShardOrder
     ∧ List.indexOf ForwardAction.subscribeEvents forwardShardOrder <
       List.indexOf ForwardAction.waitUntilReady forwardShardOrder
     ∧ List.indexOf ForwardAction.waitUntilReady forwardShardOrder <
       List.indexOf ForwardAction.sendReady forwardShardOrder
     ∧ List.indexOf ForwardAction.sendReady forwardShardOrder <
       List.indexOf ForwardAction.sendGuildBurst forwardShardOrder
     ∧ List.indexOf ForwardAction.sendGuildBurst forwardShardOrder <
       List.indexOf ForwardAction.eventLoop forwardShardOrder)
    ∧ ∀ (α : Type) (b : BroadcastLog α) (pre post : List α),
        receivedFrom (publishAll (publishAll b pre) post)
          (subscribeCursor (publishAll b pre)) = post := by
  refine ⟨by decide, ?_⟩
  intro α b pre post
  simp only [receivedFrom, publishAll, subscribeCursor]
  exact List.drop_left (b.log ++ pre) post

/-- C10: a broadcast message delivered to the event loop of
`forward_shard` without a sequence location is enqueued byte-for-byte
unchanged with the counter unchanged; one with a sequence location
increments the counter by exactly 1, and only the bytes within the located
range are replaced: the bytes before the range, the bytes after it, and
the decimal rendering of the new counter standing in the range are all as
stated. -/
theorem forward_event_effect (seq : Nat) (p : String) :
    forwardEvent seq p Option.none = (seq, p)
    ∧ ∀ si : SequenceInfo, si.first ≤ si.stop → si.stop ≤ p.data.length →
        (forwardEvent seq p (some si)).1 = usizeAdd1 seq
        ∧ ((forwardEvent seq p (some si)).2).data.take si.first
            = p.data.take si.first
        ∧ ((forwardEvent seq p (some si)).2).data.drop
              (si.first + (toString (usizeAdd1 seq)).data.length)
            = p.data.drop si.stop
        ∧ (((forwardEvent seq p (some si)).2).data.drop si.first).take
              (toString (usizeAdd1 seq)).data.length
            = (toString (usizeAdd1 seq)).data := by
  refine ⟨rfl, ?_⟩
  intro si h1 h2
  have hlen : (p.data.take si.first).length = si.first :=
    List.length_take_of_le (Nat.le_trans h1 h2)
  have hlen2 : (p.data.take si.first ++ (toString (usizeAdd1 seq)).data).length
      = si.first + (toString (usizeAdd1 seq)).data.length := by
    rw [List.length_append, hlen]
  refine ⟨rfl, ?_, ?_, ?_⟩
  · show ((p.data.take si.first ++ (toString (usizeAdd1 seq)).data
        ++ p.data.drop si.stop).take si.first) = p.data.take si.first
    rw [List.append_assoc]
    exact List.take_left' hlen
  · show ((p.data.take si.first ++ (toString (usizeAdd1 seq)).data
        ++ p.data.drop si.stop).drop
          (si.first + (toString (usizeAdd1 seq)).data.length)) = p.data.drop si.stop
    exact List.drop_left' hlen2
  · show (((p.data.take si.first ++ (toString (usizeAdd1 seq)).data
        ++ p.data.drop si.stop).drop si.first).take
          (toString (usizeAdd1 seq)).data.length) = (toString (usizeAdd1 seq)).data
    rw [List.append_assoc, List.drop_left' hlen]
    exact List.take_left' rfl

/-- Witness for C10 at a concrete message: counter 5, payload
`"0123456789"`, sequence field at bytes 3 to 5. -/
theorem forward_event_effect_witness :
    (3 : Nat) ≤ 5 ∧ (5 : Nat) ≤ "0123456789".data.length ∧
    ((forwardEvent 5 "0123456789" (some ⟨9999, 3, 5⟩)).1 = usizeAdd1 5
     ∧ ((forwardEvent 5 "0123456789" (some ⟨9999, 3, 5⟩)).2).data.take 3
         = "0123456789".data.take 3
     ∧ ((forwardEvent 5 "0123456789" (some ⟨9999, 3, 5⟩)).2).data.drop
           (3 + (toString (usizeAdd1 5)).data.length)
         = "0123456789".data.drop 5
     ∧ (((forwardEvent 5 "0123456789" (some ⟨9999, 3, 5⟩)).2).data.drop 3).take
           (toString (usizeAdd1 5)).data.length
         = (toString (usizeAdd1 5)).data) :=
  ⟨by decide, by decide,
   (forward_event_effect 5 "0123456789").2 ⟨9999, 3, 5⟩ (by decide) (by decide)⟩

/-- Modelled from the spec: the `Identify` body as used by
`handle_client` (`model.rs` is not part of this snapshot): `d.token`,
`d.shard[0]`, `d.shard[1]` and `d.compress`, the last an optional boolean
(cf. the `contains(&Some(true))` check in the sink task,
server.rs line 157). -/
structure Identify where
  token : String
  shard0 : Nat
  shard1 : Nat
  compress : Option Bool
deriving Repr, DecidableEq

/-- The configured values `handle_client` validates against:
`state.shard_count` and `CONFIG.token`. -/
structure ProxyConfig where
  shard_count : Nat
  token : String
deriving Repr, DecidableEq

/-- One inbound client websocket message as seen by the reader loop of
`handle_client`: the raw text, the result of `GatewayEvent::from_json`
(`none` when opcode extraction fails, server.rs lines 191-194) and, on
the IDENTIFY path, the result of parsing the same text as an `Identify`
(server.rs line 204). -/
structure InFrame where
  text : String
  gatewayOp : Option Nat
  identify : Option Identify
deriving Repr, DecidableEq

/-- Control frames the reader loop enqueues to the writer task. -/
inductive OutMsg where
  | heartbeatAck
  | invalidSession
deriving Repr, DecidableEq

/-- The observable per-client state threaded through the reader loop of
`handle_client`: the current upstream command binding (`shard_status`),
whether the one-shot compression channel has been consumed
(`compress_tx.take()`), the value sent on it, the shard ids sent on
`shard_id_tx`, the control frames enqueued to the writer, and the texts
forwarded upstream together with the binding used. -/
structure ReaderState where
  shardStatus : Option Nat
  compressTaken : Bool
  compressSent : Option (Option Bool)
  shardIdSends : List Nat
  out : List OutMsg
  upstream : List (Nat × String)
deriving Repr, DecidableEq

/-- The state of `handle_client` when the reader loop starts. -/
def initialReaderState : ReaderState :=
  { shardStatus := Option.none, compressTaken := false,
    compressSent := Option.none, shardIdSends := [], out := [], upstream := [] }

/-- One iteration of the reader loop of `handle_client`
(server.rs lines 187-268); `true` in the second component means the
iteration executed `break`, closing the connection.  Transcribed case by
case from the source: opcode extraction failure continues; op 1 enqueues
HEARTBEAT_ACK; op 2 continues on a parse failure, breaks on a mismatched
shard count, an out-of-range shard id or a wrong token, and otherwise
binds `shard_status`, sends the compression decision if the one-shot is
still present, and sends the shard id; op 6 enqueues INVALID_SESSION; any
other op forwards the text upstream when bound and only warns otherwise. -/
def readerStep (cfg : ProxyConfig) (st : ReaderState) (f : InFrame) :
    ReaderState × Bool :=
  match f.gatewayOp with
  | Option.none => (st, false)
  | some 1 => ({ st with out := st.out ++ [OutMsg.heartbeatAck] }, false)
  | some 2 =>
      match f.identify with
      | Option.none => (st, false)
      | some idf =>
          if idf.shard1 ≠ cfg.shard_count then (st, true)
          else if idf.shard0 ≥ idf.shard1 then (st, true)
          else if idf.token ≠ cfg.token then (st, true)
          else
            ({ st with
                shardStatus := some idf.shard0,
                compressTaken := true,
                compressSent :=
                  if st.compressTaken then st.compressSent else some idf.compress,
                shardIdSends := st.shardIdSends ++ [idf.shard0] }, false)
  | some 6 => ({ st with out := st.out ++ [OutMsg.invalidSession] }, false)
  | some _ =>
      match st.shardStatus with
      | some sid => ({ st with upstream := st.upstream ++ [(sid, f.text)] }, false)
      | Option.none => (st, false)

/-- The reader loop over a list of inbound messages; stops at the first
`break`, returning the state at that point and whether a `break` occurred. -/
def runReader (cfg : ProxyConfig) (st : ReaderState) :
    List InFrame → ReaderState × Bool
  | [] => (st, false)
  | f :: rest =>
      let r := readerStep cfg st f
      if r.2 then (r.1, true) else runReader cfg r.1 rest

/-- The IDENTIFY a frame carries when it passes all three validation
checks of the op-2 arm, `none` otherwise. -/
def validIdentify (cfg : ProxyConfig) (f : InFrame) : Option Identify :=
  match f.gatewayOp with
  | some 2 =>
      match f.identify with
      | some idf =>
          if idf.shard1 ≠ cfg.shard_count then Option.none
          else if idf.shard0 ≥ idf.shard1 then Option.none
          else if idf.token ≠ cfg.token then Option.none
          else some idf
      | Option.none => Option.none
  | _ => Option.none

/-- The valid IDENTIFYs among a list of frames, in order. -/
def validIdentifies (cfg : ProxyConfig) (frames : List InFrame) : List Identify :=
  frames.filterMap (validIdentify cfg)

/-- The update a valid IDENTIFY applies to the reader state
(the success arm of the op-2 branch). -/
def applyIdentify (st : ReaderState) (idf : Identify) : ReaderState :=
  { st with
      shardStatus := some idf.shard0,
      compressTaken := true,
      compressSent :=
        if st.compressTaken then st.compressSent else some idf.compress,
      shardIdSends := st.shardIdSends ++ [idf.shard0] }

lemma readerStep_classify (cfg : ProxyConfig) (st : ReaderState) (f : InFrame) :
    (validIdentify cfg f = Option.none ∧
      ((readerStep cfg st f).2 = true ∨
        ((readerStep cfg st f).1.shardIdSends = st.shardIdSends
         ∧ (readerStep cfg st f).1.shardStatus = st.shardStatus
         ∧ (readerStep cfg st f).1.compressTaken = st.compressTaken
         ∧ (readerStep cfg st f).1.compressSent = st.compressSent)))
    ∨ (∃ idf, validIdentify cfg f = some idf ∧
        readerStep cfg st f = (applyIdentify st idf, false)) := by
  unfold readerStep validIdentify applyIdentify
  rcases f with ⟨text, gop, idn⟩
  dsimp only
  match gop with
  | Option.none => exact Or.inl ⟨rfl, Or.inr ⟨rfl, rfl, rfl, rfl⟩⟩
  | some 1 => exact Or.inl ⟨rfl, Or.inr ⟨rfl, rfl, rfl, rfl⟩⟩
  | some 2 =>
      match idn with
      | Option.none => exact Or.inl ⟨rfl, Or.inr ⟨rfl, rfl, rfl, rfl⟩⟩
      | some idf =>
          by_cases h1 : idf.shard1 ≠ cfg.shard_count
          · simp only [if_pos h1]
            exact Or.inl ⟨trivial, Or.inl trivial⟩
          · by_cases h2 : idf.shard0 ≥ idf.shard1
            · simp only [if_neg h1, if_pos h2]
              exact Or.inl ⟨trivial, Or.inl trivial⟩
            · by_cases h3 : idf.token ≠ cfg.token
              · simp only [if_neg h1, if_neg h2, if_pos h3]
                exact Or.inl ⟨trivial, Or.inl trivial⟩
              · simp only [if_neg h1, if_neg h2, if_neg h3]
                exact Or.inr ⟨idf, rfl, rfl⟩
  | some 6 => exact Or.inl ⟨rfl, Or.inr ⟨rfl, rfl, rfl, rfl⟩⟩
  | some 0 =>
      rcases hs : st.shardStatus with _ | sid <;> simp only [hs] <;>
        exact Or.inl ⟨trivial, Or.inr ⟨trivial, trivial, trivial, trivial⟩⟩
  | some 3 =>
      rcases hs : st.shardStatus with _ | sid <;> simp only [hs] <;>
        exact Or.inl ⟨trivial, Or.inr ⟨trivial, trivial, trivial, trivial⟩⟩
  | some 4 =>
      rcases hs : st.shardStatus with _ | sid <;> simp only [hs] <;>
        exact Or.inl ⟨trivial, Or.inr ⟨trivial, trivial, trivial, trivial⟩⟩
  | some 5 =>
      rcases hs : st.shardStatus with _ | sid <;> simp only [hs] <;>
        exact Or.inl ⟨trivial, Or.inr ⟨trivial, trivial, trivial, trivial⟩⟩
  | some (n + 7) =>
      rcases hs : st.shardStatus with _ | sid <;> simp only [hs] <;>
        exact Or.inl ⟨trivial, Or.inr ⟨trivial, trivial, trivial, trivial⟩⟩

lemma runReader_unfold_cons (cfg : ProxyConfig) (st : ReaderState) (f : InFrame)
    (rest : List InFrame) :
    runReader cfg st (f :: rest) =
      if (readerStep cfg st f).2 then ((readerStep cfg st f).1, true)
      else runReader cfg (readerStep cfg st f).1 rest := rfl

lemma runReader_identify_effects (cfg : ProxyConfig) :
    ∀ (frames : List InFrame) (st : ReaderState),
      (st.compressTaken = false → st.compressSent = Option.none) →
      (runReader cfg st frames).2 = false →
      ((runReader cfg st frames).1.shardIdSends
          = st.shardIdSends ++ (validIdentifies cfg frames).map Identify.shard0)
      ∧ ((runReader cfg st frames).1.shardStatus
          = ((validIdentifies cfg frames).getLast?).elim st.shardStatus
              (fun i => some i.shard0))
      ∧ ((runReader cfg st frames).1.compressTaken
          = (st.compressTaken || !(validIdentifies cfg frames).isEmpty))
      ∧ ((runReader cfg st frames).1.compressSent
          = if st.compressTaken then st.compressSent
            else ((validIdentifies cfg frames).head?).map Identify.compress) := by
  intro frames
  induction frames with
  | nil =>
      intro st hinv _
      refine ⟨by simp [runReader, validIdentifies],
        by simp [runReader, validIdentifies],
        by simp [runReader, validIdentifies], ?_⟩
      by_cases ht : st.compressTaken
      · simp [runReader, validIdentifies, ht]
      · simp [runReader, validIdentifies, ht, hinv (by simpa using ht)]
  | cons f rest ih =>
      intro st hinv hfalse
      rw [runReader_unfold_cons] at hfalse ⊢
      by_cases hr2 : (readerStep cfg st f).2 = true
      · rw [if_pos hr2] at hfalse
        simp at hfalse
      · rw [if_neg hr2] at hfalse ⊢
        rcases readerStep_classify cfg st f with
          ⟨hv, hbrk | ⟨hs1, hs2, hs3, hs4⟩⟩ | ⟨idf, hv, hstep⟩
        · exact absurd hbrk hr2
        · have hvi : validIdentifies cfg (f :: rest) = validIdentifies cfg rest := by
            simp [validIdentifies, List.filterMap_cons, hv]
          have hinv2 : (readerStep cfg st f).1.compressTaken = false →
              (readerStep cfg st f).1.compressSent = Option.none := by
            intro h
            rw [hs3] at h
            rw [hs4]
            exact hinv h
          obtain ⟨i1, i2, i3, i4⟩ := ih (readerStep cfg st f).1 hinv2 hfalse
          refine ⟨?_, ?_, ?_, ?_⟩
          · rw [hvi, i1, hs1]
          · rw [hvi, i2, hs2]
          · rw [hvi, i3, hs3]
          · rw [hvi, i4, hs3, hs4]
        · have hr1 : (readerStep cfg st f).1 = applyIdentify st idf := by rw [hstep]
          have hvi : validIdentifies cfg (f :: rest)
              = idf :: validIdentifies cfg rest := by
            simp [validIdentifies, List.filterMap_cons, hv]
          have hinv2 : (applyIdentify st idf).compressTaken = false →
              (applyIdentify st idf).compressSent = Option.none := by
            intro h
            exact absurd h (by simp [applyIdentify])
          rw [hr1] at hfalse ⊢
          obtain ⟨i1, i2, i3, i4⟩ := ih (applyIdentify st idf) hinv2 hfalse
          refine ⟨?_, ?_, ?_, ?_⟩
          · rw [hvi, i1]
            simp [applyIdentify]
          · rw [hvi, i2]
            rcases hvr : validIdentifies cfg rest with _ | ⟨a, l⟩
            · simp [applyIdentify]
            · rw [List.getLast?_cons_cons]
              rcases hlast : (a :: l).getLast? with _ | x
              · exact absurd (List.getLast?_eq_none_iff.mp hlast) (by simp)
              · rfl
          · rw [hvi, i3]
            simp [applyIdentify]
          · rw [hvi, i4]
            simp [applyIdentify]

/-- C4: for an IDENTIFY frame whose body parses, a mismatched shard
count, an out-of-range shard id, or a wrong token each close the
connection with the reader state untouched — no shard binding, no
compression decision, no shard-id notification happens for that frame —
while a frame passing all three checks binds the client to
`state.shards[shard_id]` (and performs the two notifications). -/
theorem identify_validation (cfg : ProxyConfig) (st : ReaderState) (f : InFrame)
    (idf : Identify) (hop : f.gatewayOp = some 2) (hid : f.identify = some idf) :
    ((idf.shard1 ≠ cfg.shard_count ∨ idf.shard0 ≥ idf.shard1 ∨
        idf.token ≠ cfg.token) →
      readerStep cfg st f = (st, true))
    ∧ (idf.shard1 = cfg.shard_count → idf.shard0 < idf.shard1 →
        idf.token = cfg.token →
        readerStep cfg st f = (applyIdentify st idf, false)
        ∧ (applyIdentify st idf).shardStatus = some idf.shard0) := by
  constructor
  · intro hbad
    simp only [readerStep, hop, hid]
    split_ifs with a b c d <;>
      first
        | rfl
        | exact absurd hbad (by tauto)
  · intro h1 h2 h3
    simp only [readerStep, hop, hid]
    rw [if_neg (fun hh => hh h1), if_neg (by omega), if_neg (fun hh => hh h3)]
    exact ⟨rfl, rfl⟩

/-- Witness for C4: a wrong token closes the connection untouched, and a
correct IDENTIFY binds shard 0 of 2. -/
theorem identify_validation_witness :
    (readerStep ⟨2, "secret"⟩ initialReaderState
        ⟨"t", some 2, some ⟨"wrong", 0, 2, Option.none⟩⟩
      = (initialReaderState, true))
    ∧ (readerStep ⟨2, "secret"⟩ initialReaderState
          ⟨"t", some 2, some ⟨"secret", 0, 2, some true⟩⟩
        = (applyIdentify initialReaderState ⟨"secret", 0, 2, some true⟩, false)
       ∧ (applyIdentify initialReaderState ⟨"secret", 0, 2, some true⟩).shardStatus
           = some 0) :=
  ⟨(identify_validation ⟨2, "secret"⟩ initialReaderState
      ⟨"t", some 2, some ⟨"wrong", 0, 2, Option.none⟩⟩ ⟨"wrong", 0, 2, Option.none⟩
      rfl rfl).1 (Or.inr (Or.inr (by decide))),
   (identify_validation ⟨2, "secret"⟩ initialReaderState
      ⟨"t", some 2, some ⟨"secret", 0, 2, some true⟩⟩ ⟨"secret", 0, 2, some true⟩
      rfl rfl).2 rfl (by decide) rfl⟩

/-- C5, counterexample: an op-2 frame whose body fails to parse as an
IDENTIFY does not close the connection; at this concrete input the reader
loop continues (break flag `false`) with the state unchanged, where the
claim requires the connection to be closed as for the other protocol
violations. -/
theorem malformed_identify_skipped_cex :
    readerStep ⟨1, "secret"⟩ initialReaderState ⟨"junk", some 2, Option.none⟩
      = (initialReaderState, false) := rfl

/-- C5, amended: an op-2 frame whose body fails to parse as an IDENTIFY is
skipped like any other frame parse failure — the reader loop warns, leaves
the state untouched and continues; the connection is not closed. -/
theorem malformed_identify_skipped (cfg : ProxyConfig) (st : ReaderState)
    (f : InFrame) (hop : f.gatewayOp = some 2)
    (hid : f.identify = Option.none) :
    readerStep cfg st f = (st, false) := by
  simp only [readerStep, hop, hid]

/-- Witness for the amended C5 at a distinct concrete input. -/
theorem malformed_identify_skipped_witness :
    readerStep ⟨3, "tok"⟩ initialReaderState ⟨"oops", some 2, Option.none⟩
      = (initialReaderState, false) :=
  malformed_identify_skipped ⟨3, "tok"⟩ initialReaderState
    ⟨"oops", some 2, Option.none⟩ rfl rfl

/-- C7, counterexample: with shard count 2, a client that sends two valid
IDENTIFY frames is re-bound: after the first frame the binding is shard 0,
after the second it is shard 1.  The binding is therefore not set exactly
once, and an IDENTIFY arriving after the client is identified does re-bind
it (there is no `AwaitingFrame`-only guard in the reader loop). -/
theorem identify_rebinds_cex :
    ((runReader ⟨2, "tok"⟩ initialReaderState
        [⟨"a", some 2, some ⟨"tok", 0, 2, some true⟩⟩,
         ⟨"b", some 2, some ⟨"tok", 1, 2, some false⟩⟩]).1.shardStatus = some 1)
    ∧ ((runReader ⟨2, "tok"⟩ initialReaderState
        [⟨"a", some 2, some ⟨"tok", 0, 2, some true⟩⟩]).1.shardStatus
          = some 0) := by
  constructor <;> rfl

/-- C7, amended: the reader loop processes IDENTIFY in every state (there
is no state-machine guard), and each valid IDENTIFY re-assigns the
upstream command binding to its own shard id without closing; what is
fixed after the first valid IDENTIFY is the one-shot compression
decision, which a later IDENTIFY leaves unchanged. -/
theorem identify_handled_in_any_state (cfg : ProxyConfig) (st : ReaderState)
    (f : InFrame) (idf : Identify) (hop : f.gatewayOp = some 2)
    (hid : f.identify = some idf) (h1 : idf.shard1 = cfg.shard_count)
    (h2 : idf.shard0 < idf.shard1) (h3 : idf.token = cfg.token) :
    (readerStep cfg st f).1.shardStatus = some idf.shard0
    ∧ (readerStep cfg st f).2 = false
    ∧ (st.compressTaken = true →
        (readerStep cfg st f).1.compressSent = st.compressSent) := by
  simp only [readerStep, hop, hid]
  rw [if_neg (fun hh => hh h1), if_neg (by omega), if_neg (fun hh => hh h3)]
  refine ⟨rfl, rfl, ?_⟩
  intro ht
  simp [ht]

/-- Witness for the amended C7: a second valid IDENTIFY processed while
already bound to shard 0 with the one-shot consumed re-binds to shard 1
and leaves the compression decision unchanged. -/
theorem identify_handled_in_any_state_witness :
    ((readerStep ⟨2, "tok"⟩
        { shardStatus := some 0, compressTaken := true,
          compressSent := some (some true), shardIdSends := [0],
          out := [], upstream := [] }
        ⟨"b", some 2, some ⟨"tok", 1, 2, some false⟩⟩).1.shardStatus = some 1)
    ∧ ((readerStep ⟨2, "tok"⟩
        { shardStatus := some 0, compressTaken := true,
          compressSent := some (some true), shardIdSends := [0],
          out := [], upstream := [] }
        ⟨"b", some 2, some ⟨"tok", 1, 2, some false⟩⟩).2 = false)
    ∧ (({ shardStatus := some 0, compressTaken := true,
          compressSent := some (some true), shardIdSends := [0],
          out := [], upstream := [] } : ReaderState).compressTaken = true →
        (readerStep ⟨2, "tok"⟩
          { shardStatus := some 0, compressTaken := true,
            compressSent := some (some true), shardIdSends := [0],
            out := [], upstream := [] }
          ⟨"b", some 2, some ⟨"tok", 1, 2, some false⟩⟩).1.compressSent
          = some (some true)) :=
  identify_handled_in_any_state ⟨2, "tok"⟩
    { shardStatus := some 0, compressTaken := true,
      compressSent := some (some true), shardIdSends := [0],
      out := [], upstream := [] }
    ⟨"b", some 2, some ⟨"tok", 1, 2, some false⟩⟩ ⟨"tok", 1, 2, some false⟩
    rfl rfl rfl (by decide) rfl

/-- C9: the shard whose events are streamed and the compression decision
are both fixed by the first valid IDENTIFY, while the upstream command
target follows the last: when the reader loop processes its frames
without closing, the first value on the shard-id channel — the only one
`forward_shard` ever reads, since its receive appears exactly once, before
its loop — is the first valid IDENTIFY's shard id, the one-shot
compression decision carries the first valid IDENTIFY's `compress` field
(any later IDENTIFY's is ignored), and the upstream binding ends at the
last valid IDENTIFY's shard id. -/
theorem first_identify_fixes_stream_and_compression (cfg : ProxyConfig)
    (frames : List InFrame)
    (h : (runReader cfg initialReaderState frames).2 = false) :
    ((runReader cfg initialReaderState frames).1.shardIdSends.head?
        = ((validIdentifies cfg frames).head?).map Identify.shard0)
    ∧ ((runReader cfg initialReaderState frames).1.compressSent
        = ((validIdentifies cfg frames).head?).map Identify.compress)
    ∧ ((runReader cfg initialReaderState frames).1.shardStatus
        = ((validIdentifies cfg frames).getLast?).map Identify.shard0)
    ∧ forwardShardOrder.count ForwardAction.recvShardId = 1 := by
  obtain ⟨i1, i2, i3, i4⟩ :=
    runReader_identify_effects cfg frames initialReaderState (fun _ => rfl) h
  refine ⟨?_, ?_, ?_, by decide⟩
  · rw [i1]
    simp [initialReaderState]
  · rw [i4]
    simp [initialReaderState]
  · rw [i2]
    cases hl : (validIdentifies cfg frames).getLast? <;> simp [initialReaderState]

/-- Witness for C9: a heartbeat then two valid IDENTIFYs; the shard-id
channel's first value and the compression decision come from the first
IDENTIFY, the binding from the second. -/
theorem first_identify_fixes_stream_and_compression_witness :
    ((runReader ⟨2, "tk"⟩ initialReaderState
        [⟨"x", some 1, Option.none⟩,
         ⟨"a", some 2, some ⟨"tk", 0, 2, some true⟩⟩,
         ⟨"b", some 2, some ⟨"tk", 1, 2, Option.none⟩⟩]).2 = false)
    ∧ (((runReader ⟨2, "tk"⟩ initialReaderState
          [⟨"x", some 1, Option.none⟩,
           ⟨"a", some 2, some ⟨"tk", 0, 2, some true⟩⟩,
           ⟨"b", some 2, some ⟨"tk", 1, 2, Option.none⟩⟩]).1.shardIdSends.head?
          = ((validIdentifies ⟨2, "tk"⟩
              [⟨"x", some 1, Option.none⟩,
               ⟨"a", some 2, some ⟨"tk", 0, 2, some true⟩⟩,
               ⟨"b", some 2, some ⟨"tk", 1, 2, Option.none⟩⟩]).head?).map
                Identify.shard0)
       ∧ ((runReader ⟨2, "tk"⟩ initialReaderState
            [⟨"x", some 1, Option.none⟩,
             ⟨"a", some 2, some ⟨"tk", 0, 2, some true⟩⟩,
             ⟨"b", some 2, some ⟨"tk", 1, 2, Option.none⟩⟩]).1.compressSent
          = ((validIdentifies ⟨2, "tk"⟩
              [⟨"x", some 1, Option.none⟩,
               ⟨"a", some 2, some ⟨"tk", 0, 2, some true⟩⟩,
               ⟨"b", some 2, some ⟨"tk", 1, 2, Option.none⟩⟩]).head?).map
                Identify.compress)
       ∧ ((runReader ⟨2, "tk"⟩ initialReaderState
            [⟨"x", some 1, Option.none⟩,
             ⟨"a", some 2, some ⟨"tk", 0, 2, some true⟩⟩,
             ⟨"b", some 2, some ⟨"tk", 1, 2, Option.none⟩⟩]).1.shardStatus
          = ((validIdentifies ⟨2, "tk"⟩
              [⟨"x", some 1, Option.none⟩,
               ⟨"a", some 2, some ⟨"tk", 0, 2, some true⟩⟩,
               ⟨"b", some 2, some ⟨"tk", 1, 2, Option.none⟩⟩]).getLast?).map
                Identify.shard0)
       ∧ forwardShardOrder.count ForwardAction.recvShardId = 1) :=
  ⟨by decide,
   first_identify_fixes_stream_and_compression ⟨2, "tk"⟩
     [⟨"x", some 1, Option.none⟩,
      ⟨"a", some 2, some ⟨"tk", 0, 2, some true⟩⟩,
      ⟨"b", some 2, some ⟨"tk", 1, 2, Option.none⟩⟩] (by decide)⟩

/-- A JSON value, as far as the dispatch path inspects one. -/
inductive J where
  | null
  | bool (b : Bool)
  | num (n : Int)
  | str (s : String)
  | arr (xs : List J)
  | obj (fields : List (String × J))

/-- Modelled from the spec: the `Ready` model an upstream READY is
deserialized into (`model.rs` is not part of this snapshot); the only
field `dispatch_events` uses is the payload's `d` object. -/
structure Ready where
  d : J

/-- Helper for `clearGuilds`: `get_mut("guilds")` returns the first
matching member (simd_json objects are hash maps with unique keys), and
`as_array_mut` plus `clear` empty it iff it is an array. -/
def clearGuildsFields : List (String × J) → List (String × J)
  | [] => []
  | (k, v) :: rest =>
      if k = "guilds" then
        (k, match v with
            | J.arr _ => J.arr []
            | other => other) :: rest
      else (k, v) :: clearGuildsFields rest

/-- The guild-clearing step of `dispatch_events` (dispatch.rs lines
31-35): if `d` is an object with a `guilds` member that is an array, the
array is cleared; everything else is untouched. -/
def clearGuilds (d : J) : J :=
  match d with
  | J.obj fields => J.obj (clearGuildsFields fields)
  | other => other

/-- The result of `GatewayEventDeserializer::from_json`: the opcode and
the event name, when the scan succeeds. -/
structure GatewayDeser where
  op : Nat
  eventType : Option String

/-- One raw `Event::ShardPayload` as consumed by `dispatch_events`
(dispatch.rs lines 19-50): the payload text together with the results of
the two library parses the code performs on it — the
`GatewayEventDeserializer` scan (`none` when it fails, making the
line-22 `unwrap` panic) and the full parse as a `Ready` model (`none`
when it fails, making the line-28 `unwrap` panic on the READY path). -/
structure RawPayload where
  text : String
  deser : Option GatewayDeser
  parsedReady : Option Ready

/-- Modelled from the spec: `ShardState.ready` is a write-once cell
(`state.rs` is not part of this snapshot): the first `set` stores the
value and later writes are no-ops — the code ignores the `set` result
(`let _res = shard_status.ready.set(ready.d)`). -/
def readySet (cell : Option J) (v : J) : Option J :=
  match cell with
  | Option.none => some v
  | some old => some old

/-- The `Event::ShardPayload` arm of `dispatch_events` (dispatch.rs lines
19-50) as a function of the ready cell: `none` when the code panics (an
`unwrap` on a failed parse); otherwise the new cell, whether readiness
was signalled (`notify_waiters`), and the payload broadcast to clients,
if any. -/
def handleShardPayload (cell : Option J) (p : RawPayload) :
    Option (Option J × Bool × Option String) :=
  match p.deser with
  | Option.none => Option.none
  | some de =>
      if de.eventType = some "READY" then
        match p.parsedReady with
        | Option.none => Option.none
        | some r => some (readySet cell (clearGuilds r.d), true, Option.none)
      else if de.op = 0 ∧ de.eventType ≠ some "RESUMED" then
        some (cell, false, some p.text)
      else
        some (cell, false, Option.none)

/-- The events `dispatch_events` consumes: raw shard payloads plus the
typed guild events, which update the guild tracker only (dispatch.rs
lines 52-61); anything else is ignored. -/
inductive UpstreamEvent where
  | shardPayload (p : RawPayload)
  | guildCreate
  | guildDelete
  | guildUpdate
  | otherEvent

/-- `dispatch_events` run over a list of upstream events, tracking the
ready cell and collecting the broadcast payloads; `none` when any step
panics. -/
def runDispatch (cell : Option J) :
    List UpstreamEvent → Option (Option J × List String)
  | [] => some (cell, [])
  | UpstreamEvent.shardPayload p :: rest =>
      match handleShardPayload cell p with
      | Option.none => Option.none
      | some (cell2, _, b) =>
          match runDispatch cell2 rest with
          | Option.none => Option.none
          | some (cellF, bs) => some (cellF, b.toList ++ bs)
  | _ :: rest => runDispatch cell rest

lemma handleShardPayload_preserves_set (d0 : J) (p : RawPayload)
    (c2 : Option J) (n : Bool) (b : Option String)
    (h : handleShardPayload (some d0) p = some (c2, n, b)) : c2 = some d0 := by
  unfold handleShardPayload at h
  split at h
  · exact absurd h (by simp)
  · split at h
    · split at h
      · exact absurd h (by simp)
      · simp only [readySet, Option.some.injEq, Prod.mk.injEq] at h
        exact h.1.symm
    · split at h
      · simp only [Option.some.injEq, Prod.mk.injEq] at h
        exact h.1.symm
      · simp only [Option.some.injEq, Prod.mk.injEq] at h
        exact h.1.symm

lemma runDispatch_preserves_set :
    ∀ (events : List UpstreamEvent) (d0 : J) (res : Option J)
      (bs : List String),
      runDispatch (some d0) events = some (res, bs) → res = some d0 := by
  intro events
  induction events with
  | nil =>
      intro d0 res bs h
      simp only [runDispatch, Option.some.injEq, Prod.mk.injEq] at h
      exact h.1.symm
  | cons e rest ih =>
      intro d0 res bs h
      match e with
      | UpstreamEvent.shardPayload p =>
          simp only [runDispatch] at h
          split at h
          · exact absurd h (by simp)
          · rename_i c2 n b heq
            have hc2 : c2 = some d0 :=
              handleShardPayload_preserves_set d0 p c2 n b heq
            rw [hc2] at h
            split at h
            · exact absurd h (by simp)
            · rename_i cF bs2 heq2
              simp only [Option.some.injEq, Prod.mk.injEq] at h
              rw [← h.1]
              exact ih d0 cF bs2 heq2
      | UpstreamEvent.guildCreate => exact ih d0 res bs h
      | UpstreamEvent.guildDelete => exact ih d0 res bs h
      | UpstreamEvent.guildUpdate => exact ih d0 res bs h
      | UpstreamEvent.otherEvent => exact ih d0 res bs h

/-- C2: an upstream payload scanning as READY whose body parses has its
`d` object's `guilds` array cleared and the result stored in the shard's
ready cell iff the cell is unset, readiness is signalled, and the READY
is not broadcast; the cell is write-once — once set it keeps its first
value over any further sequence of upstream events, so subsequent
upstream READYs are no-ops on the stored snapshot. -/
theorem ready_snapshot_write_once (cell : Option J) (p : RawPayload)
    (de : GatewayDeser) (r : Ready) (hde : p.deser = some de)
    (het : de.eventType = some "READY") (hr : p.parsedReady = some r) :
    handleShardPayload cell p
      = some (readySet cell (clearGuilds r.d), true, Option.none)
    ∧ (cell = Option.none →
        readySet cell (clearGuilds r.d) = some (clearGuilds r.d))
    ∧ (∀ d0, cell = some d0 → readySet cell (clearGuilds r.d) = some d0)
    ∧ (∀ (events : List UpstreamEvent) (d0 : J) (res : Option J)
          (bs : List String),
        runDispatch (some d0) events = some (res, bs) → res = some d0) := by
  refine ⟨?_, ?_, ?_, runDispatch_preserves_set⟩
  · simp only [handleShardPayload, hde, het, hr]
    simp
  · intro hc
    rw [hc]
    rfl
  · intro d0 hc
    rw [hc]
    rfl

/-- Witness for C2: a fresh shard receiving a parsed READY with a
one-element `guilds` array stores the cleared object, signals readiness
and broadcasts nothing. -/
theorem ready_snapshot_write_once_witness :
    (handleShardPayload Option.none
        ⟨"r", some ⟨0, some "READY"⟩,
         some ⟨J.obj [("guilds", J.arr [J.null]), ("v", J.num 9)]⟩⟩
      = some (readySet Option.none
          (clearGuilds (J.obj [("guilds", J.arr [J.null]), ("v", J.num 9)])),
          true, Option.none))
    ∧ ((Option.none : Option J) = Option.none →
        readySet Option.none
            (clearGuilds (J.obj [("guilds", J.arr [J.null]), ("v", J.num 9)]))
          = some (clearGuilds (J.obj [("guilds", J.arr [J.null]), ("v", J.num 9)])))
    ∧ (∀ d0, (Option.none : Option J) = some d0 →
        readySet Option.none
            (clearGuilds (J.obj [("guilds", J.arr [J.null]), ("v", J.num 9)]))
          = some d0)
    ∧ (∀ (events : List UpstreamEvent) (d0 : J) (res : Option J)
          (bs : List String),
        runDispatch (some d0) events = some (res, bs) → res = some d0) :=
  ready_snapshot_write_once Option.none
    ⟨"r", some ⟨0, some "READY"⟩,
     some ⟨J.obj [("guilds", J.arr [J.null]), ("v", J.num 9)]⟩⟩
    ⟨0, some "READY"⟩ ⟨J.obj [("guilds", J.arr [J.null]), ("v", J.num 9)]⟩
    rfl rfl rfl

/-- C6, counterexample: an upstream payload that scans as a READY but
whose body fails to parse as a `Ready` model reaches the line-28
`unwrap`: at this concrete input the READY handling path of
`dispatch_events` panics (modelled as `none`) — the panic branch is
reachable and processing is not total, where the claim asserts the
opposite. -/
theorem ready_parse_failure_panics_cex :
    handleShardPayload Option.none
      ⟨"broken", some ⟨0, some "READY"⟩, Option.none⟩ = Option.none := rfl

/-- C6, amended: the READY handling path of `dispatch_events` is total
and panic-free exactly outside the two unwrap sites: it panics iff the
opcode/event-name scan fails, or the payload scans as a READY and its
body fails to parse as a `Ready` model.  In particular a READY parse
failure panics the event-ingest task rather than leaving the shard
quietly unready. -/
theorem dispatch_panics_iff (cell : Option J) (p : RawPayload) :
    handleShardPayload cell p = Option.none ↔
      (p.deser = Option.none
       ∨ ∃ de, p.deser = some de ∧ de.eventType = some "READY"
           ∧ p.parsedReady = Option.none) := by
  obtain ⟨text, deser, ready⟩ := p
  match deser with
  | Option.none => simp [handleShardPayload]
  | some de =>
      match ready with
      | Option.none =>
          by_cases het : de.eventType = some "READY"
          · simp [handleShardPayload, het]
          · by_cases hop : de.op = 0 ∧ de.eventType ≠ some "RESUMED"
            · simp [handleShardPayload, het, hop]
            · simp [handleShardPayload, het, hop]
      | some r =>
          by_cases het : de.eventType = some "READY"
          · simp [handleShardPayload, het]
          · by_cases hop : de.op = 0 ∧ de.eventType ≠ some "RESUMED"
            · simp [handleShardPayload, het, hop]
            · simp [handleShardPayload, het, hop]

/-- The flush modes `compress_full` uses (`FlushCompress::None` and
`FlushCompress::Sync`). -/
inductive Flush where
  | noFlush
  | syncFlush
deriving Repr, DecidableEq

/-- The status values `compress_vec` returns. -/
inductive ZStatus where
  | ok
  | bufError
  | streamEnd
deriving Repr, DecidableEq

/-- An abstract model of the `flate2::Compress` deflate stream: from a
compressor state, an input slice and a flush mode, one `compress_vec`
call yields a new state, the number of input bytes consumed and the bytes
appended to the output buffer, plus a status (the concrete deflate
algorithm is external to this repository). -/
structure Zlib (σ : Type) where
  run : σ → List Nat → Flush → σ × Nat × List Nat × ZStatus

/-- The 4-byte sync-flush trailer `00 00 FF FF` (server.rs line 37). -/
def trailerBytes : List Nat := [0x00, 0x00, 0xff, 0xff]

/-- The first loop of `compress_full` (server.rs lines 41-51): feed the
input with `FlushCompress::None`, tracking the consumed offset through
`total_in`, until all of it is consumed; `Ok` and `BufError` continue
(`reserve` only grows capacity), `StreamEnd` breaks out.  Fuel bounds the
iteration; `none` means the fuel ran out. -/
def feedLoop {σ : Type} (z : Zlib σ) :
    Nat → σ → List Nat → Nat → List Nat → Option (σ × List Nat)
  | 0, _, _, _, _ => Option.none
  | fuel + 1, c, input, offset, out =>
      if offset < input.length then
        match z.run c (input.drop offset) Flush.noFlush with
        | (c2, _, emitted, ZStatus.streamEnd) => some (c2, out ++ emitted)
        | (c2, consumed, emitted, _) =>
            feedLoop z fuel c2 input (offset + consumed) (out ++ emitted)
      else some (c, out)

/-- The second loop of `compress_full` (server.rs lines 53-62):
sync-flush until the output buffer ends with the trailer; `Ok` and
`BufError` continue, `StreamEnd` breaks out.  The boolean records whether
the loop exited through the `StreamEnd` break. -/
def syncLoop {σ : Type} (z : Zlib σ) :
    Nat → σ → List Nat → Option (σ × List Nat × Bool)
  | 0, _, _ => Option.none
  | fuel + 1, c, out =>
      if trailerBytes.isSuffixOf out then some (c, out, false)
      else
        match z.run c [] Flush.syncFlush with
        | (c2, _, emitted, ZStatus.streamEnd) => some (c2, out ++ emitted, true)
        | (c2, _, emitted, _) => syncLoop z fuel c2 (out ++ emitted)

/-- `compress_full` (server.rs lines 39-63) over the abstract deflate
stream: feed all input without flushing, then sync-flush towards the
trailer (a `StreamEnd` break in the first loop still falls through to the
second, as in the source). -/
def compressFull {σ : Type} (z : Zlib σ) (fuel : Nat) (c : σ)
    (out : List Nat) (input : List Nat) : Option (σ × List Nat × Bool) :=
  match feedLoop z fuel c input 0 out with
  | Option.none => Option.none
  | some (c2, out2) => syncLoop z fuel c2 out2

/-- One message through the sink task in zlib mode (server.rs lines
164-169): the compression buffer is cleared, `compress_full` runs on this
message's bytes alone, and the buffer is emitted as one binary frame. -/
def sinkStepZlib {σ : Type} (z : Zlib σ) (fuel : Nat) (c : σ)
    (msg : List Nat) : Option (σ × List Nat × Bool) :=
  compressFull z fuel c [] msg

/-- The sink task in zlib mode over a queue of messages, collecting each
emitted binary frame together with its `StreamEnd` break flag. -/
def sinkRunZlib {σ : Type} (z : Zlib σ) (fuel : Nat) :
    σ → List (List Nat) → Option (σ × List (List Nat × Bool))
  | c, [] => some (c, [])
  | c, m :: ms =>
      match sinkStepZlib z fuel c m with
      | Option.none => Option.none
      | some (c2, frame, ended) =>
          match sinkRunZlib z fuel c2 ms with
          | Option.none => Option.none
          | some (c3, frames) => some (c3, (frame, ended) :: frames)

lemma syncLoop_trailer {σ : Type} (z : Zlib σ) :
    ∀ (fuel : Nat) (c : σ) (out : List Nat) (c2 : σ) (res : List Nat),
      syncLoop z fuel c out = some (c2, res, false) →
      trailerBytes.isSuffixOf res = true := by
  intro fuel
  induction fuel with
  | zero =>
      intro c out c2 res h
      simp [syncLoop] at h
  | succ fuel ih =>
      intro c out c2 res h
      simp only [syncLoop] at h
      by_cases ht : trailerBytes.isSuffixOf out = true
      · rw [if_pos ht] at h
        simp only [Option.some.injEq, Prod.mk.injEq] at h
        rw [← h.2.1]
        exact ht
      · rw [if_neg ht] at h
        split at h
        all_goals
          first
            | exact ih _ _ c2 res h
            | simp at h

lemma sinkStepZlib_trailer {σ : Type} (z : Zlib σ) (fuel : Nat) (c : σ)
    (msg : List Nat) (c2 : σ) (frame : List Nat)
    (h : sinkStepZlib z fuel c msg = some (c2, frame, false)) :
    trailerBytes.isSuffixOf frame = true := by
  unfold sinkStepZlib compressFull at h
  split at h
  · exact absurd h (by simp)
  · rename_i c3 out2 heq
    exact syncLoop_trailer z fuel c3 out2 c2 frame h

/-- C8: every binary frame the sink task emits in zlib-stream mode ends
with the 4-byte trailer `00 00 FF FF` as its exact last four bytes, and
each frame carries exactly one message's chunk: the buffer is cleared
before each message, `compress_full` feeds all of that message's input
without flushing and then sync-flushes until the buffer ends with the
trailer, and the run emits one frame per message.  (Hypothesis `false`
on the break flag: the stream never reports `StreamEnd`, which deflate
guarantees for a stream never given `FlushCompress::Finish`; fuel bounds
termination.) -/
theorem zlib_frames_end_with_trailer {σ : Type} (z : Zlib σ) (fuel : Nat) :
    ∀ (msgs : List (List Nat)) (c c3 : σ) (frames : List (List Nat × Bool)),
      sinkRunZlib z fuel c msgs = some (c3, frames) →
      frames.length = msgs.length
      ∧ ∀ fr ∈ frames, fr.2 = false →
          trailerBytes.isSuffixOf fr.1 = true := by
  intro msgs
  induction msgs with
  | nil =>
      intro c c3 frames h
      simp only [sinkRunZlib, Option.some.injEq, Prod.mk.injEq] at h
      rw [← h.2]
      exact ⟨rfl, by simp⟩
  | cons m ms ih =>
      intro c c3 frames h
      simp only [sinkRunZlib] at h
      split at h
      · exact absurd h (by simp)
      · rename_i c2 frame ended heq
        split at h
        · exact absurd h (by simp)
        · rename_i c4 frames2 heq2
          simp only [Option.some.injEq, Prod.mk.injEq] at h
          obtain ⟨l1, l2⟩ := ih c2 c4 frames2 heq2
          rw [← h.2]
          constructor
          · simp [l1]
          · intro fr hmem hfalse
            rcases List.mem_cons.mp hmem with hfr | hfr
            · subst hfr
              have he : ended = false := hfalse
              rw [he] at heq
              exact sinkStepZlib_trailer z fuel c m c2 frame heq
            · exact l2 fr hfr hfalse

/-- A toy deflate model used only to witness the compressor theorems: it
copies input verbatim and appends the trailer on a sync flush. -/
def toyZlib : Zlib Unit :=
  ⟨fun c input f =>
    match f with
    | Flush.noFlush => (c, input.length, input, ZStatus.ok)
    | Flush.syncFlush => (c, 0, trailerBytes, ZStatus.ok)⟩

/-- Witness for C8: two messages through the toy stream produce one frame
each, both ending in `00 00 FF FF`. -/
theorem zlib_frames_end_with_trailer_witness :
    (sinkRunZlib toyZlib 4 () [[1, 2], [3]]
      = some ((), [([1, 2, 0, 0, 255, 255], false), ([3, 0, 0, 255, 255], false)]))
    ∧ ([([1, 2, 0, 0, 255, 255], false), ([3, 0, 0, 255, 255], false)].length
        = [[1, 2], [3]].length
       ∧ ∀ fr ∈ [([1, 2, 0, 0, 255, 255], false), ([3, 0, 0, 255, 255], false)],
          fr.2 = false → trailerBytes.isSuffixOf fr.1 = true) :=
  ⟨rfl,
   zlib_frames_end_with_trailer toyZlib 4 [[1, 2], [3]] () ()
     [([1, 2, 0, 0, 255, 255], false), ([3, 0, 0, 255, 255], false)] rfl⟩

end GatewayProxy
